import Mathlib

/-
  Verification development for the visitum ETL transformation core
  (src/data/transformation.py, src/data/extraction.py, src/data/models.py).

  The Python functions are shallowly embedded as executable Lean
  definitions.  Strings are processed through their character lists so
  that every definition is structurally recursive and kernel-evaluable.
  Python floats are modelled exactly as scaled naturals (mantissa,
  number of fractional digits); this matches CPython's behaviour on
  every input appearing in the claims, where the double computations
  are exact.
-/

namespace Visitum

/-- Model of Python str.strip (drop whitespace at both ends). -/
def trimChars (l : List Char) : List Char :=
  ((l.dropWhile Char.isWhitespace).reverse.dropWhile Char.isWhitespace).reverse

/-- Decidable list prefix test (used to implement substring search). -/
def isPrefixL {α : Type} [DecidableEq α] : List α → List α → Bool
  | [], _ => true
  | _ :: _, [] => false
  | a :: as, b :: bs => decide (a = b) && isPrefixL as bs

/-- Decidable list infix test: does needle occur contiguously in the haystack. -/
def isInfixL {α : Type} [DecidableEq α] (needle : List α) : List α → Bool
  | [] => decide (needle = [])
  | b :: bs => isPrefixL needle (b :: bs) || isInfixL needle bs

/-- Model of the Python substring test sub in s. -/
def strContains (s sub : String) : Bool := isInfixL sub.data s.data

/-- Model of Python str.lower (per-character lowering). -/
def lowerStr (s : String) : String := String.mk (s.data.map Char.toLower)

/-- Longest digit prefix of a character list together with the rest. -/
def takeDigits : List Char → List Char × List Char
  | [] => ([], [])
  | c :: rest =>
    if c.isDigit then
      let p := takeDigits rest
      (c :: p.1, p.2)
    else ([], c :: rest)

/-- Citation marker at the head of the list: if the list starts with a
bracketed run of one or more digits, return the suffix after the closing
bracket.  This is the leftmost-match step of re.sub applied to the
citation pattern of _extract_visitor_info (transformation.py line 70). -/
def citeAt : List Char → Option (List Char)
  | [] => none
  | c :: rest =>
    if c = '[' then
      match takeDigits rest with
      | (_ :: _, d :: rest2) => if d = ']' then some rest2 else none
      | _ => none
    else none

/-- Remove every citation marker, scanning left to right with
non-overlapping matches, exactly as re.sub does.  Structural recursion on
a fuel argument initialised to the length of the list; every step
consumes at least one character, so the fuel never runs out. -/
def removeCitationsAux : ℕ → List Char → List Char
  | 0, l => l
  | _ + 1, [] => []
  | fuel + 1, c :: rest =>
    match citeAt (c :: rest) with
    | some rest2 => removeCitationsAux fuel rest2
    | none => c :: removeCitationsAux fuel rest

/-- Model of re.sub removing bracketed citation markers. -/
def removeCitations (l : List Char) : List Char := removeCitationsAux l.length l

/-- Numeric value of a digit character. -/
def digitVal (c : Char) : ℕ := c.toNat - 48

/-- Parenthesized 4-digit year match at the head of the list
(pattern of transformation.py line 73). -/
def yearAt : List Char → Option ℕ
  | c0 :: c1 :: c2 :: c3 :: c4 :: c5 :: _ =>
    if c0 = '(' ∧ c1.isDigit ∧ c2.isDigit ∧ c3.isDigit ∧ c4.isDigit ∧ c5 = ')' then
      some (1000 * digitVal c1 + 100 * digitVal c2 + 10 * digitVal c3 + digitVal c4)
    else none
  | _ => none

/-- Leftmost parenthesized 4-digit year in the list (re.search of line 73). -/
def findYear : List Char → Option ℕ
  | [] => none
  | c :: rest =>
    match yearAt (c :: rest) with
    | some y => some y
    | none => findYear rest

/-- Character class of the number pattern of transformation.py line 77. -/
def isNumChar (c : Char) : Bool := c.isDigit || c = ',' || c = '.'

/-- Leftmost maximal run of digits, commas and dots (re.search of line 77). -/
def findNumberRun : List Char → Option (List Char)
  | [] => none
  | c :: rest =>
    if isNumChar c then some (c :: rest.takeWhile isNumChar) else findNumberRun rest

/-- Split a character list on a separator character, Python str.split style:
the empty list yields one empty field. -/
def splitOnCharAux (sep : Char) : List Char → List Char → List (List Char)
  | [], acc => [acc.reverse]
  | c :: rest, acc =>
    if c = sep then acc.reverse :: splitOnCharAux sep rest []
    else splitOnCharAux sep rest (c :: acc)

/-- Split a character list on a separator character. -/
def splitOnChar (sep : Char) (l : List Char) : List (List Char) := splitOnCharAux sep l []

/-- Value of a digit string read in base 10. -/
def digitsVal (l : List Char) : ℕ := l.foldl (fun a c => 10 * a + digitVal c) 0

/-- Model of Python float(s) on strings made of digits and at most one dot
(the only shapes reachable after the comma strip in _extract_visitor_info).
Returns (mantissa, number of fractional digits), the exact value being
mantissa / 10 ^ fracDigits; returns none exactly when float raises
ValueError (no digits at all, or more than one dot). -/
def parsePyFloat (cs : List Char) : Option (ℕ × ℕ) :=
  if cs.all (fun c => c.isDigit || c = '.') then
    match splitOnChar '.' cs with
    | [ip] => if ip.isEmpty then none else some (digitsVal ip, 0)
    | [ip, fp] =>
      if ip.isEmpty && fp.isEmpty then none else some (digitsVal (ip ++ fp), fp.length)
    | _ => none
  else none

/-- Case-insensitive test for the word million (transformation.py line 81). -/
def hasMillionWord (cs : List Char) : Bool :=
  isInfixL ("million".data) (cs.map Char.toLower)

/-- Embedding of _extract_visitor_info (transformation.py lines 67-87).
Returns (count, year); the exception path of the Python code (float
raising ValueError) is the parsePyFloat-none branch and yields
(none, none).  int truncation of the non-negative exact value is
natural-number division. -/
def extract_visitor_info (s : String) : Option ℕ × Option ℕ :=
  let cs := removeCitations (trimChars s.data)
  let year : ℕ :=
    match findYear cs with
    | some y => y
    | none => 2024
  match findNumberRun cs with
  | none => (none, some year)
  | some run =>
    match parsePyFloat (run.filter (fun c => decide (c ≠ ','))) with
    | none => (none, none)
    | some nd =>
      let count :=
        if hasMillionWord cs then nd.1 * 1000000 / 10 ^ nd.2 else nd.1 / 10 ^ nd.2
      (some count, some year)

/-! ## Tabular model and clean_museum_data -/

/-- Cell of a pandas DataFrame as used by the cleaner: a text cell, an
integer cell, or a missing value (None / NaN / pd.NA). -/
inductive Cell
  | str (s : String)
  | int (n : ℤ)
  | na
deriving DecidableEq

/-- DataFrame model: named columns and rows of cells aligned positionally
with the column list. -/
structure DF where
  cols : List String
  rows : List (List Cell)
deriving DecidableEq

/-- Decimal digits of a natural number, most significant first; fuel-based
structural recursion (fuel initialised to the number itself, which always
suffices). -/
def natDigitsAux : ℕ → ℕ → List Char
  | 0, _ => []
  | fuel + 1, n =>
    if n = 0 then []
    else natDigitsAux fuel (n / 10) ++ [Char.ofNat (48 + n % 10)]

/-- Decimal string of a natural number. -/
def natToStr (n : ℕ) : String :=
  if n = 0 then "0" else String.mk (natDigitsAux n n)

/-- Model of Python str(value) on the cell values the cleaner meets:
strings unchanged, integers printed in decimal, missing values printed
the way a pandas NaN prints. -/
def cellToStr : Cell → String
  | .str s => s
  | .int n => if n < 0 then "-" ++ natToStr n.natAbs else natToStr n.natAbs
  | .na => "nan"

/-- Column-label standardization of transformation.py line 36:
strip, lowercase, replace spaces with underscores. -/
def normalizeCol (s : String) : String :=
  String.mk (((trimChars s.data).map Char.toLower).map (fun c => if c = ' ' then '_' else c))

/-- Visitor-column discovery (transformation.py lines 40-57): exact name
visitors_in_2024, then exact name visitors, then the first column whose
name contains visitors together with 2024 or year. -/
def findVisitorCol (cols : List String) : Option String :=
  if "visitors_in_2024" ∈ cols then some "visitors_in_2024"
  else if "visitors" ∈ cols then some "visitors"
  else cols.find? (fun c => strContains c "visitors" && (strContains c "2024" || strContains c "year"))

/-- Index of the first column with the given name, if present. -/
def colIdx? (cols : List String) (name : String) : Option ℕ :=
  match cols with
  | [] => none
  | c :: rest => if c = name then some 0 else (colIdx? rest name).map (fun i => i + 1)

/-- Index of a column known to be present (falls back to the length, an
out-of-range index, when absent; only used on present columns). -/
def colIdx (cols : List String) (name : String) : ℕ :=
  (colIdx? cols name).getD cols.length

/-- Column assignment df[name] = vals: replace the column in place when the
name exists, append it otherwise (pandas assignment semantics). -/
def setCol (df : DF) (name : String) (vals : List Cell) : DF :=
  match colIdx? df.cols name with
  | some i => ⟨df.cols, (df.rows.zip vals).map (fun rv => rv.1.set i rv.2)⟩
  | none => ⟨df.cols ++ [name], (df.rows.zip vals).map (fun rv => rv.1 ++ [rv.2])⟩

/-- Option value to cell: parse failures become missing values. -/
def optNatCell : Option ℕ → Cell
  | some n => .int (n : ℤ)
  | none => .na

/-- Visitor-count threshold comparison on a cell (after astype(int) every
cell in the column is an integer). -/
def cellGtInt (c : Cell) (m : ℤ) : Bool :=
  match c with
  | .int n => decide (m < n)
  | _ => false

/-- Source column resolution for one final field (transformation.py lines
133-148): exact match first, then the first column containing the target
name as a substring. -/
def findSourceCol (cols : List String) (target : String) : Option String :=
  if target ∈ cols then some target
  else cols.find? (fun c => strContains c target)

/-- The final (target, source) column selection map, in the fixed order of
final_cols_map; targets with no matching source are silently omitted
(transformation.py lines 124-152). -/
def selectTargets (cols : List String) : List (String × String) :=
  ["name", "city", "country", "visitors_count", "visitors_year"].filterMap
    (fun t => (findSourceCol cols t).map (fun s => (t, s)))

/-- City-name cleanup (transformation.py line 164): astype(str), remove
citation markers, strip whitespace. -/
def cleanCityCol (df : DF) : DF :=
  match colIdx? df.cols "city" with
  | none => df
  | some i =>
    ⟨df.cols,
      df.rows.map (fun r =>
        r.set i (Cell.str (String.mk (trimChars (removeCitations (cellToStr (r.getD i Cell.na)).data)))))⟩

/-- Parsing step of transformation.py lines 89-91: apply the parser to the
visitor column and attach the visitors_count and visitors_year columns. -/
def addVisitorCols (df1 : DF) (vcol : String) : DF :=
  let vIdx := colIdx df1.cols vcol
  let parsed := df1.rows.map (fun r => extract_visitor_info (cellToStr (r.getD vIdx Cell.na)))
  setCol (setCol df1 "visitors_count" (parsed.map (fun p => optNatCell p.1)))
    "visitors_year" (parsed.map (fun p => optNatCell p.2))

/-- dropna(subset=['visitors_count']) of transformation.py line 95. -/
def dropMissingCounts (df3 : DF) : DF :=
  let cIdx := colIdx df3.cols "visitors_count"
  ⟨df3.cols, df3.rows.filter (fun r => decide (r.getD cIdx Cell.na ≠ Cell.na))⟩

/-- The two filters of transformation.py lines 110 and 115: keep year 2024,
then keep counts above 1,250,000.  The astype(int) conversions are the
identity here because parsed counts and years are stored as integer cells
directly. -/
def filterYearCount (df4 : DF) : DF :=
  let yIdx := colIdx df4.cols "visitors_year"
  let cIdx := colIdx df4.cols "visitors_count"
  let df5 : DF := ⟨df4.cols, df4.rows.filter (fun r => decide (r.getD yIdx Cell.na = Cell.int 2024))⟩
  ⟨df5.cols, df5.rows.filter (fun r => cellGtInt (r.getD cIdx Cell.na) 1250000)⟩

/-- Final column selection and renaming (transformation.py lines 122-152):
each found target column is populated from its resolved source column.
The model assumes the selected source columns are distinct, which holds
for every table the pipeline meets. -/
def selectFinalCols (df6 : DF) : DF :=
  let sel := selectTargets df6.cols
  ⟨sel.map (fun ts => ts.1),
    df6.rows.map (fun r => sel.map (fun ts => r.getD (colIdx df6.cols ts.2) Cell.na))⟩

/-- The cleaner from the point where the visitor column has been found
(transformation.py lines 67-169); from here no code path returns None,
only possibly-empty DataFrames. -/
def cleanStage2 (df1 : DF) (vcol : String) : DF :=
  let df4 := dropMissingCounts (addVisitorCols df1 vcol)
  if df4.rows.isEmpty then df4
  else
    let df6 := filterYearCount df4
    if df6.rows.isEmpty then df6
    else cleanCityCol (selectFinalCols df6)

/-- Embedding of clean_museum_data (transformation.py lines 13-169).
Returns none when the input is empty or no visitor column is identified;
otherwise the cleaned DataFrame (possibly with no rows). -/
def clean_museum_data (df : DF) : Option DF :=
  if df.rows.isEmpty || df.cols.isEmpty then none
  else
    let df1 : DF := ⟨df.cols.map normalizeCol, df.rows⟩
    match findVisitorCol df1.cols with
    | none => none
    | some vcol => some (cleanStage2 df1 vcol)

/-! ## Population lookup (extraction.py) -/

/-- Result of one population lookup, mirroring the return contract of
fetch_city_population_with_geocoder and the FetchFailureReason enum of
models.py: a population integer, or one of the classified failures
(encoded in the source as the sentinels -1, -2, -3). -/
inductive FetchOutcome
  | population (p : ℤ)
  | noDataForCity
  | fetchError
  | noDataForCompoundCity
deriving DecidableEq

/-- One geocoder attempt as the code observes it: a response with ok set,
carrying an optional population attribute; a response with ok unset; or a
raised exception. -/
inductive GeoResponse
  | ok (population : Option ℤ)
  | notOk
  | exc
deriving DecidableEq

/-- Truthiness-and-positivity test of extraction.py line 144:
hasattr and g.population and g.population greater than 0. -/
def popSuccess : Option ℤ → Bool
  | some p => decide (0 < p)
  | none => false

/-- Instrumented embedding of the retry loop of
fetch_city_population_with_geocoder (extraction.py lines 138-165) run on
the listed sequence of attempt responses (list length = configured
maximum attempts, 3 in config.py): result, number of attempts consumed
and number of retry delays slept.  A delay is inserted after a failed
attempt exactly when it is not the last one, matching the guard at line
160 when the list holds one entry per remaining attempt. -/
def fetchTrace : List GeoResponse → FetchOutcome × ℕ × ℕ
  | [] => (.fetchError, 0, 0)
  | .ok p :: _ =>
    if popSuccess p then (.population (p.getD 0), 1, 0) else (.noDataForCity, 1, 0)
  | .notOk :: rest =>
    let r := fetchTrace rest
    (r.1, r.2.1 + 1, r.2.2 + (if rest.isEmpty then 0 else 1))
  | .exc :: rest =>
    let r := fetchTrace rest
    (r.1, r.2.1 + 1, r.2.2 + (if rest.isEmpty then 0 else 1))

/-- Embedding of fetch_city_population_with_geocoder: the outcome of the
retry loop. -/
def fetch_city_population (rs : List GeoResponse) : FetchOutcome := (fetchTrace rs).1

/-! ## City resolver (handle_compound_city) -/

/-- Special-case rewriting of transformation.py lines 188-198: the
vatican/vatican rule and the london/south kensington rule, matched
case-insensitively against the original fields. -/
def applyCityRules (city country : String) : String × String :=
  let cl := lowerStr city
  let col := lowerStr country
  if strContains cl "vatican" && strContains col "vatican" then ("Rome", "Italy")
  else if strContains cl "london" && strContains cl "south kensington" then
    ("London", "United Kingdom")
  else (city, country)

/-- Comma splitting of transformation.py line 202: split on commas, strip
whitespace, drop empty segments. -/
def splitCities (s : String) : List String :=
  (((splitOnChar ',' s.data).map trimChars).filter (fun cs => decide (cs ≠ []))).map String.mk

/-- Python-dict insertion on an association list: update the value in
place when the key is present, append otherwise. -/
def dictInsert {α β : Type} [DecidableEq α] (d : List (α × β)) (k : α) (v : β) : List (α × β) :=
  if d.any (fun kv => decide (kv.1 = k)) then
    d.map (fun kv => if kv.1 = k then (k, v) else kv)
  else d ++ [(k, v)]

/-- Python-dict lookup on an association list (keys are unique, so the
first match is the entry). -/
def dictGet? {α β : Type} [DecidableEq α] : List (α × β) → α → Option β
  | [], _ => none
  | kv :: d, k => if kv.1 = k then some kv.2 else dictGet? d k

/-- The populations dict built by the loop of transformation.py lines
217-223: one lookup per segment, successful (integer) outcomes recorded
under the segment name.  The failure_reasons dict of the source is only
logged and does not influence the result, so it is not modelled. -/
def build_populations (lookup : String → String → FetchOutcome) (country : String) :
    List String → List (String × ℤ) → List (String × ℤ)
  | [], d => d
  | c :: rest, d =>
    match lookup c country with
    | .population p => build_populations lookup country rest (dictInsert d c p)
    | _ => build_populations lookup country rest d

/-- Largest value of a list of integers (0 for the empty list, which the
callers never hit). -/
def listMax : List ℤ → ℤ
  | [] => 0
  | v :: l => l.foldl max v

/-- The population retrieved by populations[max(populations,
key=populations.get)] (transformation.py lines 236-237): the maximal
value of the dict. -/
def dictMaxVal (d : List (String × ℤ)) : ℤ := listMax (d.map (fun kv => kv.2))

/-- Embedding of handle_compound_city (transformation.py lines 171-239),
parameterized by the population lookup it delegates to. -/
def handle_compound_city (lookup : String → String → FetchOutcome)
    (city_string country : String) : FetchOutcome :=
  let rw := applyCityRules city_string country
  match splitCities rw.1 with
  | [] => .noDataForCompoundCity
  | [c] => lookup c rw.2
  | c1 :: c2 :: rest =>
    match build_populations lookup rw.2 (c1 :: c2 :: rest) [] with
    | [] => .noDataForCompoundCity
    | [single] => .population single.2
    | e1 :: e2 :: es => .population (dictMaxVal (e1 :: e2 :: es))

/-- Trace of the (city, country) arguments handle_compound_city passes to
fetch_city_population_with_geocoder, in call order.  The calls performed
do not depend on the lookup results: the loop of lines 217-223 queries
every segment. -/
def handle_compound_city_calls (city_string country : String) : List (String × String) :=
  let rw := applyCityRules city_string country
  match splitCities rw.1 with
  | [] => []
  | [c] => [(c, rw.2)]
  | c1 :: c2 :: rest => (c1 :: c2 :: rest).map (fun c => (c, rw.2))

/-! ## Parallel enrichment orchestrator -/

/-- The city and country fields of one museum row; none models a missing
(NaN) value.  The remaining fields of the row do not influence the
population column. -/
structure MuseumRow where
  city : Option String
  country : Option String
deriving DecidableEq

/-- The (city, country) key of a row when both fields are present. -/
def rowPair (r : MuseumRow) : Option (String × String) :=
  match r.city, r.country with
  | some c, some k => some (c, k)
  | _, _ => none

/-- First-occurrence deduplication, as pandas drop_duplicates keeps the
first of each duplicate group. -/
def dedupFirstAux {α : Type} [DecidableEq α] (seen : List α) : List α → List α
  | [] => []
  | a :: l => if a ∈ seen then dedupFirstAux seen l else a :: dedupFirstAux (a :: seen) l

/-- First-occurrence deduplication of a list. -/
def dedupFirst {α : Type} [DecidableEq α] (l : List α) : List α := dedupFirstAux [] l

/-- The distinct (city, country) pairs dispatched to the worker pool
(transformation.py line 269): rows with a missing city or country are
dropped before deduplication. -/
def cityCountryPairs (rows : List MuseumRow) : List (String × String) :=
  dedupFirst (rows.filterMap rowPair)

/-- The population lookup as the resolver sees it, driven by the geocoder
response oracle resp: each (city, country) query runs the retry loop on
its response sequence. -/
def geoLookup (resp : String → String → List GeoResponse) (c k : String) : FetchOutcome :=
  fetch_city_population (resp c k)

/-- Embedding of _city_population_worker (transformation.py lines
241-249): the resolver outcome, or none when the worker raises an
unexpected exception (oracle wexc); the same none also models a
future.result() exception recorded at lines 294-297. -/
def city_population_worker (resp : String → String → List GeoResponse)
    (wexc : String × String → Bool) (pair : String × String) : Option FetchOutcome :=
  if wexc pair then none else some (handle_compound_city (geoLookup resp) pair.1 pair.2)

/-- The populations_map built by the as_completed loop (transformation.py
lines 272-300): worker results inserted keyed by pair, in the given
completion order. -/
def buildPopulationsMap (resp : String → String → List GeoResponse)
    (wexc : String × String → Bool) (order : List (String × String)) :
    List ((String × String) × Option FetchOutcome) :=
  order.foldl (fun m pair => dictInsert m pair (city_population_worker resp wexc pair)) []

/-- Value of the population column before the final replacement of line
324: an outcome object (integer or FetchFailureReason), or pd.NA / None. -/
inductive PopCell
  | out (o : FetchOutcome)
  | na
deriving DecidableEq

/-- Population value recorded for one key: the map entry when present
(None entries from worker exceptions give NA), the pd.NA default
otherwise (transformation.py line 307). -/
def keyPopCell (m : List ((String × String) × Option FetchOutcome))
    (pair : String × String) : PopCell :=
  match dictGet? m pair with
  | some (some o) => .out o
  | some none => .na
  | none => .na

/-- Embedding of get_population (transformation.py lines 303-307): rows
with a missing city or country get pd.NA without consulting the map. -/
def get_population (m : List ((String × String) × Option FetchOutcome))
    (r : MuseumRow) : PopCell :=
  match rowPair r with
  | some pair => keyPopCell m pair
  | none => .na

/-- The replacement of transformation.py line 324: FetchFailureReason
values become pd.NA; integer populations survive; NA stays NA. -/
def finalizePop : PopCell → Option ℤ
  | .out (.population p) => some p
  | .out _ => none
  | .na => none

/-- The population column of enrich_museums_with_city_population
(transformation.py lines 251-333) as persisted, one value per input row,
for a given geocoder oracle, worker-exception oracle and completion
order. -/
def enrich_population_column (resp : String → String → List GeoResponse)
    (wexc : String × String → Bool) (rows : List MuseumRow)
    (order : List (String × String)) : List (Option ℤ) :=
  rows.map (fun r => finalizePop (get_population (buildPopulationsMap resp wexc order) r))

/-- The enriched (city, country) to population mapping produced by a run
whose completion order is the given list. -/
def enrichedPopMapFn (resp : String → String → List GeoResponse)
    (wexc : String × String → Bool) (order : List (String × String)) :
    (String × String) → Option ℤ :=
  fun pair => finalizePop (keyPopCell (buildPopulationsMap resp wexc order) pair)

/-- The successful (integer) outcomes of looking up each segment, in
segment order. -/
def segmentSuccesses (lookup : String → String → FetchOutcome) (country : String)
    (segs : List String) : List ℤ :=
  segs.filterMap (fun c =>
    match lookup c country with
    | .population p => some p
    | _ => none)

/-- Lookup used to instantiate the resolver theorems on concrete inputs. -/
def wLookupA : String → String → FetchOutcome := fun c _ =>
  if c = "A" then .population 5 else if c = "B" then .population 9 else .noDataForCity

/-- Lookup that always fails, used for the C7 witness. -/
def wLookupNone : String → String → FetchOutcome := fun _ _ => .noDataForCity

/-- Geocoder oracle used by the enrichment witnesses. -/
def wResp : String → String → List GeoResponse := fun _ _ => [GeoResponse.ok (some 5)]

/-- Worker-exception oracle raising no exceptions, used by the witnesses. -/
def wNoExc : String × String → Bool := fun _ => false

/-- Museum rows used by the enrichment witnesses. -/
def wRows : List MuseumRow :=
  [⟨some "A", some "X"⟩, ⟨some "B", some "X"⟩, ⟨none, some "X"⟩]

/-- The same rows shuffled, used by the C6 witness. -/
def wRowsShuffled : List MuseumRow :=
  [⟨some "B", some "X"⟩, ⟨none, some "X"⟩, ⟨some "A", some "X"⟩]

/-- Raw table used to refute idempotence of the cleaner. -/
def c5raw : DF :=
  ⟨["Name", "City", "Country", "Visitors in 2024"],
   [[Cell.str "Louvre", Cell.str "Paris", Cell.str "France", Cell.str "2,825,000"]]⟩

/-- The row transformation the second cleaner run performs before
filtering: both parsed columns are overwritten with the integer 2024. -/
def bumpRows (n : ℕ) (rows : List (List Cell)) : List (List Cell) :=
  rows.map (fun r => (r.set (n - 2) (Cell.int 2024)).set (n - 1) (Cell.int 2024))

/-- The cleaned table the sample raw table produces, used by the C5
witness. -/
def c5out : DF :=
  ⟨["name", "city", "country", "visitors_count", "visitors_year"],
   [[Cell.str "Louvre", Cell.str "Paris", Cell.str "France",
     Cell.int 2825000, Cell.int 2024]]⟩

/-! ## Generic list and dictionary lemmas -/

lemma foldl_max_choice (l : List ℤ) (a : ℤ) : l.foldl max a = a ∨ l.foldl max a ∈ l := by
  induction l generalizing a with
  | nil => left; rfl
  | cons c t ih =>
    rw [List.foldl_cons]
    rcases ih (max a c) with h | h
    · rcases max_choice a c with hm | hm
      · left; rw [h, hm]
      · right; rw [h, hm]; exact List.mem_cons_self _ _
    · right; exact List.mem_cons_of_mem _ h

lemma le_foldl_max (l : List ℤ) (a : ℤ) : a ≤ l.foldl max a := by
  induction l generalizing a with
  | nil => exact le_refl a
  | cons c t ih =>
    rw [List.foldl_cons]
    exact le_trans (le_max_left a c) (ih (max a c))

lemma mem_le_foldl_max {v : ℤ} {l : List ℤ} (h : v ∈ l) (a : ℤ) : v ≤ l.foldl max a := by
  induction l generalizing a with
  | nil => cases h
  | cons c t ih =>
    rw [List.foldl_cons]
    rcases List.mem_cons.mp h with rfl | h2
    · exact le_trans (le_max_right a v) (le_foldl_max t _)
    · exact ih h2 _

lemma listMax_mem {l : List ℤ} (h : l ≠ []) : listMax l ∈ l := by
  match l with
  | [] => exact absurd rfl h
  | v :: t =>
    simp only [listMax]
    rcases foldl_max_choice t v with h1 | h1
    · rw [h1]; exact List.mem_cons_self _ _
    · exact List.mem_cons_of_mem _ h1

lemma le_listMax {v : ℤ} {l : List ℤ} (h : v ∈ l) : v ≤ listMax l := by
  match l with
  | [] => cases h
  | c :: t =>
    simp only [listMax]
    rcases List.mem_cons.mp h with rfl | h2
    · exact le_foldl_max t v
    · exact mem_le_foldl_max h2 c

lemma listMax_congr {l l' : List ℤ} (hmem : ∀ v, v ∈ l ↔ v ∈ l')
    (h : l ≠ []) (h' : l' ≠ []) : listMax l = listMax l' :=
  le_antisymm (le_listMax ((hmem _).mp (listMax_mem h)))
    (le_listMax ((hmem _).mpr (listMax_mem h')))

lemma mem_dictInsert {α β : Type} [DecidableEq α] {d : List (α × β)} {k : α} {v : β}
    {kv : α × β} (h : kv ∈ dictInsert d k v) : kv ∈ d ∨ kv = (k, v) := by
  unfold dictInsert at h
  split at h
  · rcases List.mem_map.mp h with ⟨kv0, hkv0, heq⟩
    by_cases hk : kv0.1 = k
    · right; rw [if_pos hk] at heq; exact heq.symm
    · left; rw [if_neg hk] at heq; exact heq ▸ hkv0
  · rcases List.mem_append.mp h with h1 | h1
    · left; exact h1
    · right; simpa using h1

lemma mem_dictInsert_iff {α β : Type} [DecidableEq α] {d : List (α × β)} {k : α} {v : β}
    (hgood : ∀ kv ∈ d, kv.1 = k → kv.2 = v) (kv' : α × β) :
    kv' ∈ dictInsert d k v ↔ kv' ∈ d ∨ kv' = (k, v) := by
  constructor
  · exact mem_dictInsert
  · intro h
    unfold dictInsert
    split
    · next hany =>
      rcases h with h | rfl
      · refine List.mem_map.mpr ⟨kv', h, ?_⟩
        by_cases hk : kv'.1 = k
        · rw [if_pos hk]
          have h2 := hgood kv' h hk
          calc (k, v) = (kv'.1, kv'.2) := by rw [hk, h2]
          _ = kv' := rfl
        · rw [if_neg hk]
      · rcases List.any_eq_true.mp hany with ⟨kv0, hkv0, hk0⟩
        refine List.mem_map.mpr ⟨kv0, hkv0, ?_⟩
        rw [if_pos (of_decide_eq_true hk0)]
    · next _ =>
      rcases h with h | rfl
      · exact List.mem_append_left _ h
      · exact List.mem_append_right _ (List.mem_singleton.mpr rfl)

lemma dictGet?_map_replace_ne {α β : Type} [DecidableEq α] {k key : α} (v : β)
    (d : List (α × β)) (hne : key ≠ k) :
    dictGet? (d.map (fun kv => if kv.1 = k then (k, v) else kv)) key = dictGet? d key := by
  induction d with
  | nil => rfl
  | cons kv t ih =>
    by_cases hk : kv.1 = k
    · simp only [List.map_cons, if_pos hk, dictGet?]
      rw [if_neg (fun hc => hne hc.symm), if_neg (fun hc : kv.1 = key => hne (hc.symm.trans hk))]
      exact ih
    · simp only [List.map_cons, if_neg hk, dictGet?]
      by_cases h2 : kv.1 = key
      · rw [if_pos h2, if_pos h2]
      · rw [if_neg h2, if_neg h2]; exact ih

lemma dictGet?_map_replace_eq {α β : Type} [DecidableEq α] {k : α} (v : β)
    {d : List (α × β)} (h : d.any (fun kv => decide (kv.1 = k)) = true) :
    dictGet? (d.map (fun kv => if kv.1 = k then (k, v) else kv)) k = some v := by
  induction d with
  | nil => simp at h
  | cons kv t ih =>
    by_cases hk : kv.1 = k
    · rw [List.map_cons, if_pos hk]
      simp [dictGet?]
    · have h2 : t.any (fun kv => decide (kv.1 = k)) = true := by
        rcases List.any_eq_true.mp h with ⟨kv0, hkv0, hk0⟩
        rcases List.mem_cons.mp hkv0 with rfl | hkv0
        · exact absurd (of_decide_eq_true hk0) hk
        · exact List.any_eq_true.mpr ⟨kv0, hkv0, hk0⟩
      simp only [List.map_cons, if_neg hk, dictGet?, if_neg hk]
      exact ih h2

lemma dictGet?_not_mem {α β : Type} [DecidableEq α] {k : α} {d : List (α × β)}
    (h : d.any (fun kv => decide (kv.1 = k)) = false) : dictGet? d k = none := by
  induction d with
  | nil => rfl
  | cons kv t ih =>
    rw [List.any_cons, Bool.or_eq_false_iff] at h
    simp only [dictGet?]
    rw [if_neg (of_decide_eq_false h.1)]
    exact ih h.2

lemma dictGet?_append_single {α β : Type} [DecidableEq α] (d : List (α × β)) (k key : α) (v : β) :
    dictGet? (d ++ [(k, v)]) key =
      match dictGet? d key with
      | some b => some b
      | none => if k = key then some v else none := by
  induction d with
  | nil => rfl
  | cons kv t ih =>
    simp only [List.cons_append, dictGet?]
    by_cases h2 : kv.1 = key
    · rw [if_pos h2, if_pos h2]
    · rw [if_neg h2, if_neg h2]
      exact ih

lemma dictGet?_dictInsert {α β : Type} [DecidableEq α] (d : List (α × β)) (k key : α) (v : β) :
    dictGet? (dictInsert d k v) key = if key = k then some v else dictGet? d key := by
  unfold dictInsert
  split
  · next hany =>
    by_cases hk : key = k
    · subst hk; rw [if_pos rfl]; exact dictGet?_map_replace_eq v hany
    · rw [if_neg hk]; exact dictGet?_map_replace_ne v d hk
  · next hany =>
    have hfalse : d.any (fun kv => decide (kv.1 = k)) = false := by
      cases h : d.any (fun kv => decide (kv.1 = k))
      · rfl
      · exact absurd h hany
    rw [dictGet?_append_single]
    by_cases hk : key = k
    · subst hk
      rw [dictGet?_not_mem hfalse, if_pos rfl]
    · cases hg : dictGet? d key with
      | some b => rw [if_neg hk]
      | none =>
        rw [if_neg hk]
        show (if k = key then some v else none) = none
        rw [if_neg (fun hc : k = key => hk hc.symm)]

lemma mem_dedupFirstAux {α : Type} [DecidableEq α] (l : List α) :
    ∀ (seen : List α) (a : α), a ∈ dedupFirstAux seen l ↔ a ∈ l ∧ a ∉ seen := by
  induction l with
  | nil => intro seen a; simp [dedupFirstAux]
  | cons b t ih =>
    intro seen a
    by_cases hb : b ∈ seen
    · rw [dedupFirstAux, if_pos hb, ih]
      constructor
      · rintro ⟨h1, h2⟩; exact ⟨List.mem_cons_of_mem _ h1, h2⟩
      · rintro ⟨h1, h2⟩
        rcases List.mem_cons.mp h1 with rfl | h1
        · exact absurd hb h2
        · exact ⟨h1, h2⟩
    · rw [dedupFirstAux, if_neg hb]
      constructor
      · intro h
        rcases List.mem_cons.mp h with rfl | h1
        · exact ⟨List.mem_cons_self _ _, hb⟩
        · obtain ⟨h2, h3⟩ := (ih _ _).mp h1
          exact ⟨List.mem_cons_of_mem _ h2, fun hc => h3 (List.mem_cons_of_mem _ hc)⟩
      · rintro ⟨h1, h2⟩
        rcases List.mem_cons.mp h1 with rfl | h1
        · exact List.mem_cons_self _ _
        · by_cases hab : a = b
          · subst hab; exact List.mem_cons_self _ _
          · refine List.mem_cons_of_mem _ ((ih _ _).mpr ⟨h1, fun hc => ?_⟩)
            rcases List.mem_cons.mp hc with h4 | h4
            · exact hab h4
            · exact h2 h4

lemma mem_dedupFirst {α : Type} [DecidableEq α] (l : List α) (a : α) :
    a ∈ dedupFirst l ↔ a ∈ l := by
  rw [dedupFirst, mem_dedupFirstAux]; simp

/-! ## Resolver lemmas -/

lemma mem_build_populations (lookup : String → String → FetchOutcome) (country : String)
    (cities : List String) :
    ∀ d : List (String × ℤ), (∀ kv ∈ d, lookup kv.1 country = .population kv.2) →
      ∀ kv : String × ℤ, kv ∈ build_populations lookup country cities d ↔
        kv ∈ d ∨ (kv.1 ∈ cities ∧ lookup kv.1 country = .population kv.2) := by
  induction cities with
  | nil =>
    intro d _ kv
    simp [build_populations]
  | cons c rest ih =>
    intro d hd kv
    simp only [build_populations]
    cases hc : lookup c country
    case population p =>
      have hgood2 : ∀ kv0 ∈ dictInsert d c p, lookup kv0.1 country = .population kv0.2 := by
        intro kv0 h0
        rcases mem_dictInsert h0 with h1 | rfl
        · exact hd kv0 h1
        · exact hc
      have hrepl : ∀ kv0 ∈ d, kv0.1 = c → kv0.2 = p := by
        intro kv0 h0 h1
        have h3 := hd kv0 h0
        rw [h1, hc] at h3
        exact (FetchOutcome.population.inj h3).symm
      rw [ih _ hgood2 kv, mem_dictInsert_iff hrepl]
      constructor
      · rintro ((h | rfl) | ⟨h1, h2⟩)
        · left; exact h
        · right; exact ⟨List.mem_cons_self _ _, hc⟩
        · right; exact ⟨List.mem_cons_of_mem _ h1, h2⟩
      · rintro (h | ⟨h1, h2⟩)
        · left; left; exact h
        · rcases List.mem_cons.mp h1 with h3 | h3
          · left; right
            have h4 : kv.2 = p := by
              rw [h3, hc] at h2
              exact (FetchOutcome.population.inj h2).symm
            calc kv = (kv.1, kv.2) := rfl
            _ = (c, p) := by rw [h3, h4]
          · right; exact ⟨h3, h2⟩
    all_goals {
      rw [ih _ hd kv]
      constructor
      · rintro (h | ⟨h1, h2⟩)
        · left; exact h
        · right; exact ⟨List.mem_cons_of_mem _ h1, h2⟩
      · rintro (h | ⟨h1, h2⟩)
        · left; exact h
        · rcases List.mem_cons.mp h1 with h3 | h3
          · rw [h3, hc] at h2; cases h2
          · right; exact ⟨h3, h2⟩
    }

lemma mem_populationsDict (lookup : String → String → FetchOutcome) (country : String)
    (cities : List String) (kv : String × ℤ) :
    kv ∈ build_populations lookup country cities [] ↔
      kv.1 ∈ cities ∧ lookup kv.1 country = .population kv.2 := by
  rw [mem_build_populations lookup country cities [] (by simp) kv]
  simp

lemma mem_dictValues_iff (lookup : String → String → FetchOutcome) (country : String)
    (cities : List String) (v : ℤ) :
    v ∈ (build_populations lookup country cities []).map (fun kv => kv.2) ↔
      v ∈ segmentSuccesses lookup country cities := by
  rw [List.mem_map]
  constructor
  · rintro ⟨kv, hkv, rfl⟩
    rw [mem_populationsDict] at hkv
    refine List.mem_filterMap.mpr ⟨kv.1, hkv.1, ?_⟩
    rw [hkv.2]
  · intro h
    rcases List.mem_filterMap.mp h with ⟨c, hc, hpc⟩
    have hlc : lookup c country = .population v := by
      cases hl : lookup c country <;> rw [hl] at hpc <;> simp at hpc
      rw [hpc]
    exact ⟨(c, v), (mem_populationsDict lookup country cities (c, v)).mpr ⟨hc, hlc⟩, rfl⟩

lemma populationsDict_nil_iff (lookup : String → String → FetchOutcome) (country : String)
    (cities : List String) :
    build_populations lookup country cities [] = [] ↔
      segmentSuccesses lookup country cities = [] := by
  constructor
  · intro h
    rw [List.eq_nil_iff_forall_not_mem]
    intro v hv
    rcases List.mem_filterMap.mp hv with ⟨c, hc, hpc⟩
    have hlc : lookup c country = .population v := by
      cases hl : lookup c country <;> rw [hl] at hpc <;> simp at hpc
      rw [hpc]
    have : (c, v) ∈ build_populations lookup country cities [] :=
      (mem_populationsDict lookup country cities (c, v)).mpr ⟨hc, hlc⟩
    rw [h] at this
    cases this
  · intro h
    rw [List.eq_nil_iff_forall_not_mem]
    intro kv hkv
    rw [mem_populationsDict] at hkv
    have : kv.2 ∈ segmentSuccesses lookup country cities :=
      List.mem_filterMap.mpr ⟨kv.1, hkv.1, by rw [hkv.2]⟩
    rw [h] at this
    cases this

lemma fetch_population_pos : ∀ {rs : List GeoResponse} {p : ℤ},
    fetch_city_population rs = .population p → 0 < p := by
  intro rs
  induction rs with
  | nil => intro p h; cases h
  | cons r rest ih =>
    intro p h
    cases r with
    | ok q =>
      cases q with
      | some z =>
        by_cases hz : 0 < z
        · have : fetch_city_population (GeoResponse.ok (some z) :: rest) = .population z := by
            simp [fetch_city_population, fetchTrace, popSuccess, hz]
          rw [this] at h
          rw [← FetchOutcome.population.inj h]
          exact hz
        · have : fetch_city_population (GeoResponse.ok (some z) :: rest) = .noDataForCity := by
            simp [fetch_city_population, fetchTrace, popSuccess, hz]
          rw [this] at h
          cases h
      | none =>
        have : fetch_city_population (GeoResponse.ok none :: rest) = .noDataForCity := by
          simp [fetch_city_population, fetchTrace, popSuccess]
        rw [this] at h
        cases h
    | notOk =>
      exact ih (by simpa [fetch_city_population, fetchTrace] using h)
    | exc =>
      exact ih (by simpa [fetch_city_population, fetchTrace] using h)

lemma handle_pos (resp : String → String → List GeoResponse) (city country : String) (p : ℤ)
    (h : handle_compound_city (geoLookup resp) city country = .population p) : 0 < p := by
  rw [handle_compound_city] at h
  rcases hsp : splitCities (applyCityRules city country).1 with _ | ⟨c1, _ | ⟨c2, rest⟩⟩
  · rw [hsp] at h
    have h2 : FetchOutcome.noDataForCompoundCity = FetchOutcome.population p := h
    cases h2
  · rw [hsp] at h
    have h2 : geoLookup resp c1 (applyCityRules city country).2 = FetchOutcome.population p := h
    exact fetch_population_pos h2
  · rw [hsp] at h
    have h2 :
        (match build_populations (geoLookup resp) (applyCityRules city country).2
            (c1 :: c2 :: rest) [] with
          | [] => FetchOutcome.noDataForCompoundCity
          | [single] => FetchOutcome.population single.2
          | e1 :: e2 :: es => FetchOutcome.population (dictMaxVal (e1 :: e2 :: es))) =
          FetchOutcome.population p := h
    rcases hD : build_populations (geoLookup resp) (applyCityRules city country).2
        (c1 :: c2 :: rest) [] with _ | ⟨e1, _ | ⟨e2, es⟩⟩
    · rw [hD] at h2; cases h2
    · rw [hD] at h2
      have he1 := (mem_populationsDict (geoLookup resp) _ _ e1).mp
        (by rw [hD]; exact List.mem_singleton.mpr rfl)
      have hp : p = e1.2 := (FetchOutcome.population.inj h2).symm
      rw [hp]
      exact fetch_population_pos he1.2
    · rw [hD] at h2
      have hp : p = dictMaxVal (e1 :: e2 :: es) := (FetchOutcome.population.inj h2).symm
      have hmem : dictMaxVal (e1 :: e2 :: es) ∈ (e1 :: e2 :: es).map (fun kv => kv.2) :=
        listMax_mem (by simp)
      rcases List.mem_map.mp hmem with ⟨kv, hkv, hkv2⟩
      have hkv3 := (mem_populationsDict (geoLookup resp) _ _ kv).mp (by rw [hD]; exact hkv)
      rw [hp, ← hkv2]
      exact fetch_population_pos hkv3.2

/-! ## Claim theorems: resolver and lookup -/

/-- C2: for every city string with two or more non-empty comma-separated
segments remaining after the normalization rules, the resolver queries the
population lookup exactly once per segment (in segment order, each paired
with the resolved country); when no segment lookup returns an integer the
result is NoDataForCompoundCity, when the successful lookups are exactly
one the result is that population, and in general a non-empty success set
yields the maximum successful population. -/
theorem compound_city_resolution (lookup : String → String → FetchOutcome)
    (city country : String)
    (h2 : 2 ≤ (splitCities (applyCityRules city country).1).length) :
    handle_compound_city_calls city country =
      (splitCities (applyCityRules city country).1).map
        (fun s => (s, (applyCityRules city country).2)) ∧
    (segmentSuccesses lookup (applyCityRules city country).2
        (splitCities (applyCityRules city country).1) = [] →
      handle_compound_city lookup city country = .noDataForCompoundCity) ∧
    (∀ p : ℤ, segmentSuccesses lookup (applyCityRules city country).2
        (splitCities (applyCityRules city country).1) = [p] →
      handle_compound_city lookup city country = .population p) ∧
    (segmentSuccesses lookup (applyCityRules city country).2
        (splitCities (applyCityRules city country).1) ≠ [] →
      handle_compound_city lookup city country =
        .population (listMax (segmentSuccesses lookup (applyCityRules city country).2
          (splitCities (applyCityRules city country).1)))) := by
  rcases hsp : splitCities (applyCityRules city country).1 with _ | ⟨c1, _ | ⟨c2, rest⟩⟩
  · rw [hsp] at h2; simp at h2
  · rw [hsp] at h2; simp at h2
  · have hhandle : handle_compound_city lookup city country =
        match build_populations lookup (applyCityRules city country).2 (c1 :: c2 :: rest) [] with
        | [] => FetchOutcome.noDataForCompoundCity
        | [single] => FetchOutcome.population single.2
        | e1 :: e2 :: es => FetchOutcome.population (dictMaxVal (e1 :: e2 :: es)) := by
      simp only [handle_compound_city]
      rw [hsp]
    have hmaxeq : segmentSuccesses lookup (applyCityRules city country).2 (c1 :: c2 :: rest) ≠ [] →
        handle_compound_city lookup city country =
          .population (listMax (segmentSuccesses lookup (applyCityRules city country).2
            (c1 :: c2 :: rest))) := by
      intro hne
      rcases hD : build_populations lookup (applyCityRules city country).2 (c1 :: c2 :: rest) []
        with _ | ⟨e1, _ | ⟨e2, es⟩⟩
      · exact absurd ((populationsDict_nil_iff lookup _ _).mp hD) hne
      · have hvals : ∀ v : ℤ,
            v ∈ segmentSuccesses lookup (applyCityRules city country).2 (c1 :: c2 :: rest) ↔
              v = e1.2 := by
          intro v
          have hx := mem_dictValues_iff lookup (applyCityRules city country).2 (c1 :: c2 :: rest) v
          rw [hD] at hx
          simp only [List.map_cons, List.map_nil, List.mem_singleton] at hx
          exact hx.symm
        have hmax : listMax (segmentSuccesses lookup (applyCityRules city country).2
            (c1 :: c2 :: rest)) = e1.2 :=
          (hvals _).mp (listMax_mem hne)
        rw [hhandle, hD, hmax]
      · have hcongr : dictMaxVal (e1 :: e2 :: es) =
            listMax (segmentSuccesses lookup (applyCityRules city country).2 (c1 :: c2 :: rest)) := by
          show listMax ((e1 :: e2 :: es).map (fun kv => kv.2)) = _
          apply listMax_congr
          · intro v
            have hx := mem_dictValues_iff lookup (applyCityRules city country).2 (c1 :: c2 :: rest) v
            rw [hD] at hx
            exact hx
          · simp
          · exact hne
        rw [hhandle, hD]
        exact congrArg FetchOutcome.population hcongr
    refine ⟨?_, ?_, ?_, ?_⟩
    · simp only [handle_compound_city_calls]
      rw [hsp]
    · intro hs
      rw [hhandle, (populationsDict_nil_iff lookup _ _).mpr hs]
    · intro p hp
      have hx := hmaxeq (by rw [hp]; simp)
      rw [hp] at hx
      simpa [listMax] using hx
    · exact hmaxeq

/-- Witness for C2 at the compound city "A, B": both segments are queried
and the maximum of the two successes is returned. -/
theorem compound_city_resolution_w :
    handle_compound_city_calls "A, B" "X" = [("A", "X"), ("B", "X")] ∧
    handle_compound_city wLookupA "A, B" "X" = .population 9 := by
  have h := compound_city_resolution wLookupA "A, B" "X" (by decide)
  constructor
  · rw [h.1]; decide
  · have h4 := h.2.2.2 (by decide)
    rw [h4]; decide

/-- C7: when the city string yields no non-empty segments after rule
application and comma splitting, the resolver answers
NoDataForCompoundCity without performing any lookup call. -/
theorem resolver_empty_city (lookup : String → String → FetchOutcome) (city country : String)
    (h : splitCities (applyCityRules city country).1 = []) :
    handle_compound_city lookup city country = .noDataForCompoundCity ∧
    handle_compound_city_calls city country = [] := by
  constructor
  · simp only [handle_compound_city]
    rw [h]
  · simp only [handle_compound_city_calls]
    rw [h]

/-- Witness for C7 at resolve("", "Country"). -/
theorem resolver_empty_city_w :
    handle_compound_city wLookupNone "" "Country" = .noDataForCompoundCity ∧
    handle_compound_city_calls "" "Country" = [] :=
  resolver_empty_city wLookupNone "" "Country" (by decide)

/-- C8: whenever the city and country both contain vatican
case-insensitively, the resolver queries the lookup exactly once, with the
pair ("Rome", "Italy"), and returns that single lookup outcome. -/
theorem vatican_rewrite (lookup : String → String → FetchOutcome) (city country : String)
    (hc : strContains (lowerStr city) "vatican" = true)
    (hk : strContains (lowerStr country) "vatican" = true) :
    handle_compound_city_calls city country = [("Rome", "Italy")] ∧
    handle_compound_city lookup city country = lookup "Rome" "Italy" := by
  have hrw : applyCityRules city country = ("Rome", "Italy") := by
    simp [applyCityRules, hc, hk]
  constructor
  · simp only [handle_compound_city_calls, hrw]
    rw [show splitCities ("Rome", "Italy").1 = ["Rome"] from by decide]
  · simp only [handle_compound_city, hrw]
    rw [show splitCities ("Rome", "Italy").1 = ["Rome"] from by decide]

/-- Witness for C8 at resolve("Vatican City", "Vatican City"). -/
theorem vatican_rewrite_w :
    handle_compound_city_calls "Vatican City" "Vatican City" = [("Rome", "Italy")] ∧
    handle_compound_city wLookupA "Vatican City" "Vatican City" = wLookupA "Rome" "Italy" :=
  vatican_rewrite wLookupA "Vatican City" "Vatican City" (by decide) (by decide)

/-- C9: a successful geocoder response without a positive population value
makes the lookup return NoDataForCity on that very attempt, with no
further attempts consumed and no delay slept after it (delays only
separate earlier failed attempts); and FetchError arises exactly when
every attempt was a non-OK response or an exception. -/
theorem fetch_retry_policy :
    (∀ (pre : List GeoResponse) (p : Option ℤ) (post : List GeoResponse),
        (∀ r ∈ pre, r = GeoResponse.notOk ∨ r = GeoResponse.exc) →
        popSuccess p = false →
        fetchTrace (pre ++ GeoResponse.ok p :: post) =
          (FetchOutcome.noDataForCity, pre.length + 1, pre.length)) ∧
    (∀ rs : List GeoResponse,
        fetch_city_population rs = FetchOutcome.fetchError ↔
          ∀ r ∈ rs, r = GeoResponse.notOk ∨ r = GeoResponse.exc) := by
  constructor
  · intro pre
    induction pre with
    | nil =>
      intro p post _ hp
      simp [fetchTrace, hp]
    | cons r pre ih =>
      intro p post hpre hp
      have hne : ((pre ++ GeoResponse.ok p :: post).isEmpty) = false := by
        cases pre <;> simp
      have hih := ih p post (fun r0 h0 => hpre r0 (List.mem_cons_of_mem _ h0)) hp
      rcases hpre r (List.mem_cons_self _ _) with rfl | rfl <;>
        simp [fetchTrace, hih, hne]
  · intro rs
    induction rs with
    | nil => simp [fetch_city_population, fetchTrace]
    | cons r rest ih =>
      cases r with
      | ok q =>
        constructor
        · intro h
          by_cases hq : popSuccess q <;>
            simp [fetch_city_population, fetchTrace, hq] at h
        · intro h
          rcases h (GeoResponse.ok q) (List.mem_cons_self _ _) with h1 | h1 <;> cases h1
      | notOk =>
        rw [show fetch_city_population (GeoResponse.notOk :: rest) = fetch_city_population rest
          from rfl, ih]
        simp
      | exc =>
        rw [show fetch_city_population (GeoResponse.exc :: rest) = fetch_city_population rest
          from rfl, ih]
        simp

/-- Witness for C9: a no-population success on the second attempt stops
the loop with one delay from the first failed attempt, and an all-failure
sequence gives FetchError. -/
theorem fetch_retry_policy_w :
    fetchTrace [GeoResponse.notOk, GeoResponse.ok (some 0), GeoResponse.exc] =
      (FetchOutcome.noDataForCity, 2, 1) ∧
    fetch_city_population [GeoResponse.notOk, GeoResponse.exc] = FetchOutcome.fetchError := by
  constructor
  · have h := fetch_retry_policy.1 [GeoResponse.notOk] (some 0) [GeoResponse.exc]
      (by decide) (by decide)
    simpa using h
  · exact (fetch_retry_policy.2 [GeoResponse.notOk, GeoResponse.exc]).mpr (by decide)

/-! ## Enrichment lemmas and claim theorems -/

lemma dictGet?_buildPopulationsMap (resp : String → String → List GeoResponse)
    (wexc : String × String → Bool) (order : List (String × String)) (pair : String × String) :
    dictGet? (buildPopulationsMap resp wexc order) pair =
      if pair ∈ order then some (city_population_worker resp wexc pair) else none := by
  have haux : ∀ (ord : List (String × String))
      (m0 : List ((String × String) × Option FetchOutcome)) (pr : String × String),
      dictGet? (ord.foldl (fun m p => dictInsert m p (city_population_worker resp wexc p)) m0) pr =
        if pr ∈ ord then some (city_population_worker resp wexc pr) else dictGet? m0 pr := by
    intro ord
    induction ord with
    | nil => intro m0 pr; simp
    | cons p rest ih =>
      intro m0 pr
      rw [List.foldl_cons, ih]
      by_cases hmem : pr ∈ rest
      · rw [if_pos hmem, if_pos (List.mem_cons_of_mem _ hmem)]
      · rw [if_neg hmem, dictGet?_dictInsert]
        by_cases hp : pr = p
        · subst hp
          simp
        · rw [if_neg hp, if_neg (fun hc => by
            rcases List.mem_cons.mp hc with h | h
            · exact hp h
            · exact hmem h)]
  have h := haux order [] pair
  simpa [buildPopulationsMap, dictGet?] using h

lemma keyPopCell_pop (resp : String → String → List GeoResponse)
    (wexc : String × String → Bool) (order : List (String × String)) (pair : String × String)
    (p : ℤ)
    (h : keyPopCell (buildPopulationsMap resp wexc order) pair =
      PopCell.out (FetchOutcome.population p)) : 0 < p := by
  have hg : (match dictGet? (buildPopulationsMap resp wexc order) pair with
      | some (some o) => PopCell.out o
      | some none => PopCell.na
      | none => PopCell.na) = PopCell.out (FetchOutcome.population p) := h
  rw [dictGet?_buildPopulationsMap] at hg
  by_cases hmem : pair ∈ order
  · rw [if_pos hmem] at hg
    cases hw : city_population_worker resp wexc pair with
    | none =>
      rw [hw] at hg
      have hg2 : PopCell.na = PopCell.out (FetchOutcome.population p) := hg
      cases hg2
    | some o =>
      rw [hw] at hg
      have hg2 : PopCell.out o = PopCell.out (FetchOutcome.population p) := hg
      have ho : o = FetchOutcome.population p := PopCell.out.inj hg2
      have hw2 : city_population_worker resp wexc pair = some o := hw
      simp only [city_population_worker] at hw2
      by_cases hwx : wexc pair
      · simp [hwx] at hw2
      · simp only [hwx, if_false, Bool.false_eq_true, reduceIte] at hw2
        have hhandle : handle_compound_city (geoLookup resp) pair.1 pair.2 =
            FetchOutcome.population p := by
          rw [← ho]
          exact Option.some.inj hw2
        exact handle_pos resp pair.1 pair.2 p hhandle
  · rw [if_neg hmem] at hg
    have hg2 : PopCell.na = PopCell.out (FetchOutcome.population p) := hg
    cases hg2

/-- C1: every value of the persisted population column is either absent or
a strictly positive integer; failure reasons and the negative sentinels
encoding them never appear. -/
theorem enriched_population_pos_or_absent (resp : String → String → List GeoResponse)
    (wexc : String × String → Bool) (rows : List MuseumRow) (order : List (String × String)) :
    ∀ v ∈ enrich_population_column resp wexc rows order,
      v = none ∨ ∃ p : ℤ, v = some p ∧ 0 < p := by
  intro v hv
  rcases List.mem_map.mp hv with ⟨r, _, rfl⟩
  cases hg : get_population (buildPopulationsMap resp wexc order) r with
  | na => left; rfl
  | out o =>
    cases o with
    | population p =>
      right
      refine ⟨p, rfl, ?_⟩
      cases hrp : rowPair r with
      | none =>
        have hg2 : PopCell.na = PopCell.out (FetchOutcome.population p) := by
          rw [← hg]
          simp [get_population, hrp]
        cases hg2
      | some pair =>
        have hg2 : keyPopCell (buildPopulationsMap resp wexc order) pair =
            PopCell.out (FetchOutcome.population p) := by
          rw [← hg]
          simp [get_population, hrp]
        exact keyPopCell_pop resp wexc order pair p hg2
    | noDataForCity => left; rfl
    | fetchError => left; rfl
    | noDataForCompoundCity => left; rfl

/-- Witness for C1: the first row of the witness table gets population 5,
which the theorem certifies to be positive-or-absent. -/
theorem enriched_population_pos_or_absent_w :
    some (5 : ℤ) = none ∨ ∃ p : ℤ, some (5 : ℤ) = some p ∧ 0 < p :=
  enriched_population_pos_or_absent wResp wNoExc wRows [("A", "X"), ("B", "X")]
    (some 5) (by decide)

/-- C6: for a fixed geocoder oracle, the (city, country) to population
mapping produced by enrichment is the same for any permutation of the
input rows and any worker completion order over the corresponding distinct
key sets, and the per-row population column is determined by that mapping.
Pool width influences only the completion order, which is quantified. -/
theorem enrichment_order_invariant (resp : String → String → List GeoResponse)
    (wexc : String × String → Bool) (rows rows' : List MuseumRow)
    (order order' : List (String × String))
    (hrows : rows'.Perm rows)
    (horder : order.Perm (cityCountryPairs rows))
    (horder' : order'.Perm (cityCountryPairs rows')) :
    enrichedPopMapFn resp wexc order = enrichedPopMapFn resp wexc order' ∧
    enrich_population_column resp wexc rows order =
      rows.map (fun r =>
        match rowPair r with
        | some pair => enrichedPopMapFn resp wexc order pair
        | none => none) := by
  have hmem : ∀ pr : String × String, pr ∈ order ↔ pr ∈ order' := by
    intro pr
    rw [horder.mem_iff, horder'.mem_iff, cityCountryPairs, cityCountryPairs,
      mem_dedupFirst, mem_dedupFirst]
    exact (hrows.filterMap rowPair).mem_iff.symm
  constructor
  · funext pair
    simp only [enrichedPopMapFn, keyPopCell]
    rw [dictGet?_buildPopulationsMap, dictGet?_buildPopulationsMap]
    by_cases h : pair ∈ order
    · rw [if_pos h, if_pos ((hmem pair).mp h)]
    · rw [if_neg h, if_neg (fun hc => h ((hmem pair).mpr hc))]
  · simp only [enrich_population_column]
    refine List.map_congr_left ?_
    intro r _
    cases hrp : rowPair r with
    | none => simp [get_population, hrp, finalizePop]
    | some pair => simp [get_population, hrp, enrichedPopMapFn]

/-- Witness for C6: two completion orders of the same key set, for the
original and the shuffled witness rows, give the same mapping. -/
theorem enrichment_order_invariant_w :
    enrichedPopMapFn wResp wNoExc [("A", "X"), ("B", "X")] =
      enrichedPopMapFn wResp wNoExc [("B", "X"), ("A", "X")] :=
  (enrichment_order_invariant wResp wNoExc wRows wRowsShuffled
    [("A", "X"), ("B", "X")] [("B", "X"), ("A", "X")]
    (by decide) (by decide) (by decide)).1

lemma rowPair_eq_none {r : MuseumRow} (h : r.city = none ∨ r.country = none) :
    rowPair r = none := by
  cases r with
  | mk c k => rcases h with h | h <;> cases c <;> cases k <;> simp_all [rowPair]

/-- C10: rows with a missing city or country receive an absent population
without consulting the lookup map, and every (city, country) key
dispatched to the worker pool stems from a row carrying both fields. -/
theorem missing_fields_absent (resp : String → String → List GeoResponse)
    (wexc : String × String → Bool) (rows : List MuseumRow) (order : List (String × String)) :
    (∀ r ∈ rows, r.city = none ∨ r.country = none →
      finalizePop (get_population (buildPopulationsMap resp wexc order) r) = none) ∧
    (∀ pr ∈ cityCountryPairs rows, ∃ r ∈ rows, r.city = some pr.1 ∧ r.country = some pr.2) := by
  constructor
  · intro r _ hmiss
    simp [get_population, rowPair_eq_none hmiss, finalizePop]
  · intro pr hpr
    rw [cityCountryPairs, mem_dedupFirst] at hpr
    rcases List.mem_filterMap.mp hpr with ⟨r, hr, hrp⟩
    refine ⟨r, hr, ?_⟩
    cases r with
    | mk c k =>
      cases c with
      | none => simp [rowPair] at hrp
      | some cv =>
        cases k with
        | none => simp [rowPair] at hrp
        | some kv =>
          simp only [rowPair] at hrp
          have hpr2 : (cv, kv) = pr := Option.some.inj hrp
          rw [← hpr2]
          exact ⟨rfl, rfl⟩

/-- Witness for C10: the NaN-city row of the witness table gets an absent
population, and the dispatched key ("A", "X") stems from the first row. -/
theorem missing_fields_absent_w :
    finalizePop (get_population (buildPopulationsMap wResp wNoExc [("A", "X")])
      ⟨none, some "X"⟩) = none ∧
    ∃ r ∈ wRows, r.city = some "A" ∧ r.country = some "X" := by
  constructor
  · exact (missing_fields_absent wResp wNoExc wRows [("A", "X")]).1
      ⟨none, some "X"⟩ (by decide) (by decide)
  · exact (missing_fields_absent wResp wNoExc wRows [("A", "X")]).2 ("A", "X") (by decide)

/-! ## Claim theorems: parser and cleaner -/

/-- C3 (code-bug evidence): the parser strips commas before the float
parse, so the cell "2,5 million [in 2024]" yields 25,000,000 (year 2024 by
default), not the 2,500,000 the repository's own test table
EXPECTED_AFTER_PARSING_FILTERING asserts; "2.5 million" yields 2,500,000
as expected. -/
theorem million_comma_parse :
    extract_visitor_info "2,5 million [in 2024]" = (some 25000000, some 2024) ∧
    extract_visitor_info "2.5 million" = (some 2500000, some 2024) ∧
    (extract_visitor_info "2,5 million [in 2024]").1 ≠ some 2500000 := by
  decide

/-- Counterexample to C5: cleaning the sample raw table keeps its one row,
but cleaning the cleaned output again returns an empty table (the
visitors_year column is re-detected as the visitor column, every count is
re-parsed as 2024, and the 1,250,000 threshold drops every row), so the
row sets differ. -/
theorem clean_not_idempotent :
    (clean_museum_data c5raw).map (fun d => d.rows.length) = some 1 ∧
    ((clean_museum_data c5raw).bind clean_museum_data).map (fun d => d.rows.length) = some 0 := by
  decide

/-! ## List lemmas for the cleaner rerun theorem -/

lemma getD_set_self : ∀ (l : List Cell) (i : ℕ) (v d : Cell),
    i < l.length → (l.set i v).getD i d = v := by
  intro l
  induction l with
  | nil => intro i v d h; simp at h
  | cons a t ih =>
    intro i v d h
    cases i with
    | zero => rfl
    | succ j =>
      have h2 : j < t.length := by simpa using h
      show (t.set j v).getD j d = v
      exact ih j v d h2

lemma getD_set_ne : ∀ (l : List Cell) (i j : ℕ) (v d : Cell),
    i ≠ j → (l.set i v).getD j d = l.getD j d := by
  intro l
  induction l with
  | nil => intro i j v d _; rfl
  | cons a t ih =>
    intro i j v d hne
    cases i with
    | zero =>
      cases j with
      | zero => exact absurd rfl hne
      | succ j2 => rfl
    | succ i2 =>
      cases j with
      | zero => rfl
      | succ j2 =>
        show (t.set i2 v).getD j2 d = t.getD j2 d
        exact ih i2 j2 v d (fun hc => hne (by rw [hc]))

lemma zip_map_self {α β : Type} (l : List α) (g : α → β) :
    l.zip (l.map g) = l.map (fun a => (a, g a)) := by
  induction l with
  | nil => rfl
  | cons a t ih => simp only [List.map_cons, List.zip_cons_cons, ih]

lemma zip_map_both {α β γ : Type} (l : List α) (f : α → β) (g : α → γ) :
    (l.map f).zip (l.map g) = l.map (fun a => (f a, g a)) := by
  induction l with
  | nil => rfl
  | cons a t ih => simp only [List.map_cons, List.zip_cons_cons, ih]

lemma colIdx?_eq_none_iff {cols : List String} {name : String} :
    colIdx? cols name = none ↔ name ∉ cols := by
  induction cols with
  | nil => simp [colIdx?]
  | cons c rest ih =>
    by_cases hc : c = name
    · subst hc
      simp [colIdx?]
    · rw [colIdx?, if_neg hc, Option.map_eq_none', ih]
      constructor
      · intro h hm
        rcases List.mem_cons.mp hm with hm | hm
        · exact hc hm.symm
        · exact h hm
      · intro h
        exact fun hm => h (List.mem_cons_of_mem _ hm)

lemma colIdx?_lt_of_some : ∀ {l : List String} {x : String} {i : ℕ},
    colIdx? l x = some i → i < l.length := by
  intro l
  induction l with
  | nil => intro x i h; cases h
  | cons c rest ih =>
    intro x i h
    by_cases hc : c = x
    · rw [colIdx?, if_pos hc] at h
      rw [← Option.some.inj h]
      simp
    · rw [colIdx?, if_neg hc] at h
      rcases Option.map_eq_some'.mp h with ⟨j, hj, rfl⟩
      have := ih hj
      simpa using this

lemma colIdx?_append_of_mem : ∀ {l1 : List String} {x : String}, x ∈ l1 →
    ∀ l2 : List String, colIdx? (l1 ++ l2) x = colIdx? l1 x := by
  intro l1
  induction l1 with
  | nil => intro x h; cases h
  | cons c rest ih =>
    intro x h l2
    by_cases hc : c = x
    · rw [List.cons_append, colIdx?, if_pos hc, colIdx?, if_pos hc]
    · have h2 : x ∈ rest := by
        rcases List.mem_cons.mp h with rfl | h2
        · exact absurd rfl hc
        · exact h2
      rw [List.cons_append, colIdx?, if_neg hc, ih h2 l2, colIdx?, if_neg hc]

lemma colIdx?_append_of_not_mem : ∀ {l1 : List String} {x : String}, x ∉ l1 →
    ∀ l2 : List String,
      colIdx? (l1 ++ l2) x = (colIdx? l2 x).map (fun i => i + l1.length) := by
  intro l1
  induction l1 with
  | nil =>
    intro x _ l2
    simp only [List.nil_append, List.length_nil]
    cases colIdx? l2 x <;> simp
  | cons c rest ih =>
    intro x h l2
    have hc : ¬ c = x := fun hc0 => h (hc0 ▸ List.mem_cons_self _ _)
    have h2 : x ∉ rest := fun hm => h (List.mem_cons_of_mem _ hm)
    rw [List.cons_append, colIdx?, if_neg hc, ih h2 l2]
    cases colIdx? l2 x with
    | none => rfl
    | some j =>
      show some (j + rest.length + 1) = some (j + (c :: rest).length)
      have hlen : j + rest.length + 1 = j + (c :: rest).length := by
        simp
        omega
      rw [hlen]

lemma getD_append_right_self {α : Type} : ∀ (l1 l2 : List α) (j : ℕ) (d : α),
    (l1 ++ l2).getD (l1.length + j) d = l2.getD j d := by
  intro l1
  induction l1 with
  | nil =>
    intro l2 j d
    rw [List.nil_append, List.length_nil, Nat.zero_add]
  | cons a t ih =>
    intro l2 j d
    have hidx : (a :: t).length + j = (t.length + j) + 1 := by
      simp
      omega
    rw [List.cons_append, hidx, List.getD_cons_succ]
    exact ih l2 j d

lemma getD_map_of_lt {α β : Type} (f : α → β) :
    ∀ (l : List α) (i : ℕ) (d : β) (d0 : α), i < l.length →
      (l.map f).getD i d = f (l.getD i d0) := by
  intro l
  induction l with
  | nil => intro i d d0 h; simp at h
  | cons a t ih =>
    intro i d d0 h
    cases i with
    | zero => rfl
    | succ j =>
      have h2 : j < t.length := by simpa using h
      show (t.map f).getD j d = f (t.getD j d0)
      exact ih j d d0 h2

/-! ## Shape of the cleaner's output columns -/

lemma mem_setCol_cols_self (df : DF) (name : String) (vals : List Cell) :
    name ∈ (setCol df name vals).cols := by
  cases h : colIdx? df.cols name with
  | some i =>
    have hmem : name ∈ df.cols := by
      by_contra hj
      rw [colIdx?_eq_none_iff.mpr hj] at h
      cases h
    simp only [setCol, h]
    exact hmem
  | none =>
    simp only [setCol, h]
    exact List.mem_append_right _ (List.mem_singleton.mpr rfl)

lemma mem_setCol_cols_of_mem {df : DF} {x : String} (h : x ∈ df.cols)
    (name : String) (vals : List Cell) : x ∈ (setCol df name vals).cols := by
  cases h2 : colIdx? df.cols name with
  | some i => simp only [setCol, h2]; exact h
  | none => simp only [setCol, h2]; exact List.mem_append_left _ h

lemma mem_addVisitorCols_vc (df1 : DF) (vcol : String) :
    "visitors_count" ∈ (addVisitorCols df1 vcol).cols := by
  simp only [addVisitorCols]
  exact mem_setCol_cols_of_mem (mem_setCol_cols_self df1 "visitors_count" _) _ _

lemma mem_addVisitorCols_vy (df1 : DF) (vcol : String) :
    "visitors_year" ∈ (addVisitorCols df1 vcol).cols := by
  simp only [addVisitorCols]
  exact mem_setCol_cols_self _ _ _

lemma selectTargets_decomp (cols : List String)
    (hvc : "visitors_count" ∈ cols) (hvy : "visitors_year" ∈ cols) :
    selectTargets cols =
      (["name", "city", "country"].filterMap
        (fun t => (findSourceCol cols t).map (fun s => (t, s)))) ++
      [("visitors_count", "visitors_count"), ("visitors_year", "visitors_year")] := by
  have h1 : findSourceCol cols "visitors_count" = some "visitors_count" := by
    rw [findSourceCol, if_pos hvc]
  have h2 : findSourceCol cols "visitors_year" = some "visitors_year" := by
    rw [findSourceCol, if_pos hvy]
  show (["name", "city", "country"] ++ ["visitors_count", "visitors_year"]).filterMap _ = _
  rw [List.filterMap_append]
  congr 1
  simp [h1, h2]

lemma selA_fst (cols : List String) :
    ∀ ts ∈ ["name", "city", "country"].filterMap
      (fun t => (findSourceCol cols t).map (fun s => (t, s))),
      ts.1 = "name" ∨ ts.1 = "city" ∨ ts.1 = "country" := by
  intro ts hts
  rcases List.mem_filterMap.mp hts with ⟨t, ht, hf⟩
  rcases Option.map_eq_some'.mp hf with ⟨s, _, rfl⟩
  simp only [List.mem_cons, List.not_mem_nil, or_false] at ht
  rcases ht with rfl | rfl | rfl
  · left; rfl
  · right; left; rfl
  · right; right; rfl

lemma standard_cols_facts (B : List String)
    (hBmem : ∀ x ∈ B, x = "name" ∨ x = "city" ∨ x = "country") :
    (B ++ ["visitors_count", "visitors_year"]).map normalizeCol =
        B ++ ["visitors_count", "visitors_year"] ∧
    findVisitorCol (B ++ ["visitors_count", "visitors_year"]) = some "visitors_year" ∧
    colIdx? (B ++ ["visitors_count", "visitors_year"]) "visitors_year" =
      some ((B ++ ["visitors_count", "visitors_year"]).length - 1) ∧
    colIdx? (B ++ ["visitors_count", "visitors_year"]) "visitors_count" =
      some ((B ++ ["visitors_count", "visitors_year"]).length - 2) ∧
    2 ≤ (B ++ ["visitors_count", "visitors_year"]).length := by
  refine ⟨?_, ?_, ?_, ?_, ?_⟩
  · have hB : B.map normalizeCol = B.map id :=
      List.map_congr_left (fun x hx => by
        rcases hBmem x hx with rfl | rfl | rfl <;> decide)
    rw [List.map_append, hB, List.map_id]
    congr 1
  · have hnot1 : "visitors_in_2024" ∉ B ++ ["visitors_count", "visitors_year"] := by
      intro hm
      rcases List.mem_append.mp hm with hm | hm
      · rcases hBmem _ hm with h | h | h <;> exact absurd h (by decide)
      · simp only [List.mem_cons, List.not_mem_nil, or_false] at hm
        rcases hm with h | h <;> exact absurd h (by decide)
    have hnot2 : "visitors" ∉ B ++ ["visitors_count", "visitors_year"] := by
      intro hm
      rcases List.mem_append.mp hm with hm | hm
      · rcases hBmem _ hm with h | h | h <;> exact absurd h (by decide)
      · simp only [List.mem_cons, List.not_mem_nil, or_false] at hm
        rcases hm with h | h <;> exact absurd h (by decide)
    rw [findVisitorCol, if_neg hnot1, if_neg hnot2, List.find?_append]
    have hfB : B.find? (fun c => strContains c "visitors" &&
        (strContains c "2024" || strContains c "year")) = none :=
      List.find?_eq_none.mpr (fun x hx => by
        rcases hBmem x hx with rfl | rfl | rfl <;> decide)
    rw [hfB]
    decide
  · have hnm : "visitors_year" ∉ B := by
      intro hm
      rcases hBmem _ hm with h | h | h <;> exact absurd h (by decide)
    rw [colIdx?_append_of_not_mem hnm]
    have hc2 : colIdx? ["visitors_count", "visitors_year"] "visitors_year" = some 1 := by decide
    rw [hc2]
    have hlen : 1 + B.length = (B ++ ["visitors_count", "visitors_year"]).length - 1 := by
      simp
      omega
    rw [Option.map_some', hlen]
  · have hnm : "visitors_count" ∉ B := by
      intro hm
      rcases hBmem _ hm with h | h | h <;> exact absurd h (by decide)
    rw [colIdx?_append_of_not_mem hnm]
    have hc2 : colIdx? ["visitors_count", "visitors_year"] "visitors_count" = some 0 := by decide
    rw [hc2]
    have hlen : 0 + B.length = (B ++ ["visitors_count", "visitors_year"]).length - 2 := by
      simp
    rw [Option.map_some', hlen]
  · simp

/-! ## Shape of the cleaner's output rows -/

lemma cleanCityCol_cols (df : DF) : (cleanCityCol df).cols = df.cols := by
  cases h : colIdx? df.cols "city" with
  | none => simp [cleanCityCol, h]
  | some i => simp [cleanCityCol, h]

lemma selectFinalCols_cols (df : DF) :
    (selectFinalCols df).cols = (selectTargets df.cols).map (fun ts => ts.1) := rfl

lemma selectFinalCols_rows (df : DF) :
    (selectFinalCols df).rows = df.rows.map (fun r =>
      (selectTargets df.cols).map (fun ts => r.getD (colIdx df.cols ts.2) Cell.na)) := rfl

lemma cleanCityCol_rows_ne {df : DF} (h : df.rows ≠ []) : (cleanCityCol df).rows ≠ [] := by
  cases h2 : colIdx? df.cols "city" with
  | none => simpa [cleanCityCol, h2] using h
  | some i => simpa [cleanCityCol, h2] using h

lemma filterYearCount_year (df4 : DF) :
    ∀ r ∈ (filterYearCount df4).rows,
      r.getD (colIdx df4.cols "visitors_year") Cell.na = Cell.int 2024 := by
  intro r hr
  simp only [filterYearCount] at hr
  have hr2 := List.mem_of_mem_filter hr
  have h3 := List.of_mem_filter hr2
  exact of_decide_eq_true h3

lemma out_rows_facts (df6 : DF)
    (hvc : "visitors_count" ∈ df6.cols) (hvy : "visitors_year" ∈ df6.cols)
    (hyear : ∀ r ∈ df6.rows, r.getD (colIdx df6.cols "visitors_year") Cell.na = Cell.int 2024) :
    ∀ r ∈ (cleanCityCol (selectFinalCols df6)).rows,
      r.length = (cleanCityCol (selectFinalCols df6)).cols.length ∧
      r.getD ((cleanCityCol (selectFinalCols df6)).cols.length - 1) Cell.na = Cell.int 2024 := by
  set A := ["name", "city", "country"].filterMap
    (fun t => (findSourceCol df6.cols t).map (fun s => (t, s))) with hAdef
  have hsel : selectTargets df6.cols =
      A ++ [("visitors_count", "visitors_count"), ("visitors_year", "visitors_year")] :=
    selectTargets_decomp df6.cols hvc hvy
  have hcols7 : (selectFinalCols df6).cols =
      A.map (fun ts => ts.1) ++ ["visitors_count", "visitors_year"] := by
    rw [selectFinalCols_cols, hsel, List.map_append]
    rfl
  have hlen7 : (selectFinalCols df6).cols.length = A.length + 2 := by
    rw [hcols7]; simp
  have hbase : ∀ r ∈ (selectFinalCols df6).rows,
      r.length = A.length + 2 ∧
      r.getD (A.length + 1) Cell.na = Cell.int 2024 := by
    intro r hr
    rw [selectFinalCols_rows] at hr
    rcases List.mem_map.mp hr with ⟨r0, hr0, rfl⟩
    constructor
    · rw [hsel]; simp
    · rw [hsel, List.map_append]
      have hidx : A.length + 1 =
          (A.map (fun ts => r0.getD (colIdx df6.cols ts.2) Cell.na)).length + 1 := by simp
      rw [hidx, getD_append_right_self]
      show r0.getD (colIdx df6.cols "visitors_year") Cell.na = Cell.int 2024
      exact hyear r0 hr0
  intro r hr
  cases hci : colIdx? (selectFinalCols df6).cols "city" with
  | none =>
    have hr' : r ∈ (selectFinalCols df6).rows := by
      simpa [cleanCityCol, hci] using hr
    have hb := hbase r hr'
    rw [cleanCityCol_cols, hlen7]
    refine ⟨hb.1, ?_⟩
    have hi2 : A.length + 2 - 1 = A.length + 1 := by omega
    rw [hi2]
    exact hb.2
  | some j =>
    have hj : j < A.length := by
      rw [hcols7] at hci
      by_cases hcin : "city" ∈ A.map (fun ts => ts.1)
      · rw [colIdx?_append_of_mem hcin] at hci
        have := colIdx?_lt_of_some hci
        simpa using this
      · rw [colIdx?_append_of_not_mem hcin] at hci
        have hc2 : colIdx? ["visitors_count", "visitors_year"] "city" = none := by decide
        rw [hc2] at hci
        cases hci
    have hr' : ∃ r0 ∈ (selectFinalCols df6).rows,
        r = r0.set j (Cell.str (String.mk (trimChars (removeCitations
          (cellToStr (r0.getD j Cell.na)).data)))) := by
      simp only [cleanCityCol, hci] at hr
      rcases List.mem_map.mp hr with ⟨r0, hr0, rfl⟩
      exact ⟨r0, hr0, rfl⟩
    rcases hr' with ⟨r0, hr0, rfl⟩
    have hb := hbase r0 hr0
    rw [cleanCityCol_cols, hlen7]
    constructor
    · rw [List.length_set]
      exact hb.1
    · have hi2 : A.length + 2 - 1 = A.length + 1 := by omega
      rw [hi2, getD_set_ne r0 j (A.length + 1) _ _ (by omega)]
      exact hb.2

/-! ## Rerunning the cleaner on standard cleaned columns -/

lemma extract_year_cell :
    cellToStr (Cell.int 2024) = "2024" ∧
    extract_visitor_info "2024" = (some 2024, some 2024) := by decide

lemma setCol_present {df : DF} {name : String} {i : ℕ} (h : colIdx? df.cols name = some i)
    (vals : List Cell) :
    setCol df name vals = ⟨df.cols, (df.rows.zip vals).map (fun rv => rv.1.set i rv.2)⟩ := by
  unfold setCol
  rw [h]

lemma clean_on_standard (cols : List String) (rows : List (List Cell))
    (h1 : cols.map normalizeCol = cols)
    (h2 : findVisitorCol cols = some "visitors_year")
    (h3 : colIdx? cols "visitors_year" = some (cols.length - 1))
    (h4 : colIdx? cols "visitors_count" = some (cols.length - 2))
    (h5 : 2 ≤ cols.length)
    (h6 : rows ≠ [])
    (h7 : ∀ r ∈ rows, r.length = cols.length)
    (h8 : ∀ r ∈ rows, r.getD (cols.length - 1) Cell.na = Cell.int 2024) :
    clean_museum_data ⟨cols, rows⟩ = some ⟨cols, []⟩ := by
  have hre : rows.isEmpty = false := by
    cases rows
    · exact absurd rfl h6
    · rfl
  have hce : cols.isEmpty = false := by
    cases cols
    · simp at h5
    · rfl
  have hvIdxy : colIdx cols "visitors_year" = cols.length - 1 := by
    rw [colIdx, h3]
    rfl
  have hvIdxc : colIdx cols "visitors_count" = cols.length - 2 := by
    rw [colIdx, h4]
    rfl
  have hparsed : rows.map (fun r =>
      extract_visitor_info (cellToStr (r.getD (colIdx cols "visitors_year") Cell.na))) =
      rows.map (fun _ => ((some 2024 : Option ℕ), (some 2024 : Option ℕ))) := by
    apply List.map_congr_left
    intro r hr
    rw [hvIdxy, h8 r hr, extract_year_cell.1]
    exact extract_year_cell.2
  have hvals1 : ((rows.map (fun _ => ((some 2024 : Option ℕ), (some 2024 : Option ℕ)))).map
      (fun p => optNatCell p.1)) = rows.map (fun _ => Cell.int (2024 : ℤ)) := by
    rw [List.map_map]
    rfl
  have hvals2 : ((rows.map (fun _ => ((some 2024 : Option ℕ), (some 2024 : Option ℕ)))).map
      (fun p => optNatCell p.2)) = rows.map (fun _ => Cell.int (2024 : ℤ)) := by
    rw [List.map_map]
    rfl
  have hrows2 : ((rows.zip (rows.map (fun _ => Cell.int (2024 : ℤ)))).map
      (fun rv => rv.1.set (cols.length - 2) rv.2)) =
      rows.map (fun r => r.set (cols.length - 2) (Cell.int 2024)) := by
    rw [zip_map_self, List.map_map]
    rfl
  have hrows3 : (((rows.map (fun r => r.set (cols.length - 2) (Cell.int 2024))).zip
      (rows.map (fun _ => Cell.int (2024 : ℤ)))).map
      (fun rv => rv.1.set (cols.length - 1) rv.2)) = bumpRows cols.length rows := by
    rw [zip_map_both, List.map_map]
    rfl
  have hadd : addVisitorCols ⟨cols, rows⟩ "visitors_year" =
      ⟨cols, bumpRows cols.length rows⟩ := by
    show setCol (setCol ⟨cols, rows⟩ "visitors_count"
        ((rows.map (fun r => extract_visitor_info (cellToStr
          (r.getD (colIdx cols "visitors_year") Cell.na)))).map (fun p => optNatCell p.1)))
      "visitors_year"
        ((rows.map (fun r => extract_visitor_info (cellToStr
          (r.getD (colIdx cols "visitors_year") Cell.na)))).map (fun p => optNatCell p.2)) =
      ⟨cols, bumpRows cols.length rows⟩
    rw [hparsed, hvals1, hvals2,
      @setCol_present ⟨cols, rows⟩ "visitors_count" (cols.length - 2) h4, hrows2,
      @setCol_present ⟨cols, rows.map (fun r => r.set (cols.length - 2) (Cell.int 2024))⟩
        "visitors_year" (cols.length - 1) h3,
      hrows3]
  have hcell_c : ∀ r ∈ rows, (((r.set (cols.length - 2) (Cell.int 2024)).set (cols.length - 1)
      (Cell.int 2024)).getD (cols.length - 2) Cell.na) = Cell.int 2024 := by
    intro r hr
    rw [getD_set_ne _ _ _ _ _ (by omega)]
    exact getD_set_self _ _ _ _ (by rw [h7 r hr]; omega)
  have hcell_y : ∀ r ∈ rows, (((r.set (cols.length - 2) (Cell.int 2024)).set (cols.length - 1)
      (Cell.int 2024)).getD (cols.length - 1) Cell.na) = Cell.int 2024 := by
    intro r hr
    apply getD_set_self
    rw [List.length_set, h7 r hr]
    omega
  have hfilter1 : (bumpRows cols.length rows).filter
      (fun r => decide (r.getD (colIdx cols "visitors_count") Cell.na ≠ Cell.na)) =
      bumpRows cols.length rows := by
    apply List.filter_eq_self.mpr
    intro a ha
    rcases List.mem_map.mp ha with ⟨r, hr, rfl⟩
    rw [hvIdxc, hcell_c r hr]
    decide
  have hdrop : dropMissingCounts ⟨cols, bumpRows cols.length rows⟩ =
      ⟨cols, bumpRows cols.length rows⟩ := by
    show (⟨cols, (bumpRows cols.length rows).filter
      (fun r => decide (r.getD (colIdx cols "visitors_count") Cell.na ≠ Cell.na))⟩ : DF) =
      ⟨cols, bumpRows cols.length rows⟩
    rw [hfilter1]
  have hfilter2 : (bumpRows cols.length rows).filter
      (fun r => decide (r.getD (colIdx cols "visitors_year") Cell.na = Cell.int 2024)) =
      bumpRows cols.length rows := by
    apply List.filter_eq_self.mpr
    intro a ha
    rcases List.mem_map.mp ha with ⟨r, hr, rfl⟩
    rw [hvIdxy, hcell_y r hr]
    decide
  have hfilter3 : (bumpRows cols.length rows).filter
      (fun r => cellGtInt (r.getD (colIdx cols "visitors_count") Cell.na) 1250000) = [] := by
    apply List.filter_eq_nil_iff.mpr
    intro a ha
    rcases List.mem_map.mp ha with ⟨r, hr, rfl⟩
    rw [hvIdxc, hcell_c r hr]
    decide
  have hfyc : filterYearCount ⟨cols, bumpRows cols.length rows⟩ = ⟨cols, []⟩ := by
    show (⟨cols, ((bumpRows cols.length rows).filter
      (fun r => decide (r.getD (colIdx cols "visitors_year") Cell.na = Cell.int 2024))).filter
      (fun r => cellGtInt (r.getD (colIdx cols "visitors_count") Cell.na) 1250000)⟩ : DF) =
      ⟨cols, []⟩
    rw [hfilter2, hfilter3]
  have hr3 : (bumpRows cols.length rows).isEmpty = false := by
    unfold bumpRows
    cases rows
    · exact absurd rfl h6
    · rfl
  have hstage : cleanStage2 ⟨cols, rows⟩ "visitors_year" = ⟨cols, []⟩ := by
    unfold cleanStage2
    rw [hadd, hdrop]
    simp only [hfyc, hr3]
    simp
  show (if (rows.isEmpty || cols.isEmpty) = true then none
    else match findVisitorCol (cols.map normalizeCol) with
      | none => none
      | some vcol => some (cleanStage2 ⟨cols.map normalizeCol, rows⟩ vcol)) = some ⟨cols, []⟩
  rw [hre, hce, h1, h2]
  show some (cleanStage2 ⟨cols, rows⟩ "visitors_year") = some ⟨cols, []⟩
  rw [hstage]

/-- C5 amended: cleaning is not idempotent; whenever clean succeeds with a
non-empty table, re-running clean on that output identifies visitors_year
as the visitor column, re-parses every count as 2024, and the visitor
threshold then removes every row, so the second run returns the empty
table over the same columns. -/
theorem clean_rerun_returns_empty (df out : DF)
    (h : clean_museum_data df = some out) (hne : out.rows ≠ []) :
    clean_museum_data out = some ⟨out.cols, []⟩ := by
  unfold clean_museum_data at h
  by_cases hemp : (df.rows.isEmpty || df.cols.isEmpty) = true
  · rw [if_pos hemp] at h
    cases h
  · rw [if_neg hemp] at h
    have hmatch : (match findVisitorCol (df.cols.map normalizeCol) with
        | none => (none : Option DF)
        | some vcol => some (cleanStage2 ⟨df.cols.map normalizeCol, df.rows⟩ vcol)) =
        some out := h
    cases hfv : findVisitorCol (df.cols.map normalizeCol) with
    | none =>
      rw [hfv] at hmatch
      have h2 : (none : Option DF) = some out := hmatch
      cases h2
    | some vcol =>
      rw [hfv] at hmatch
      have h2 : some (cleanStage2 ⟨df.cols.map normalizeCol, df.rows⟩ vcol) = some out := hmatch
      have hout := Option.some.inj h2
      have hs2 : cleanStage2 ⟨df.cols.map normalizeCol, df.rows⟩ vcol =
          if (dropMissingCounts (addVisitorCols ⟨df.cols.map normalizeCol, df.rows⟩
              vcol)).rows.isEmpty
          then dropMissingCounts (addVisitorCols ⟨df.cols.map normalizeCol, df.rows⟩ vcol)
          else if (filterYearCount (dropMissingCounts (addVisitorCols
              ⟨df.cols.map normalizeCol, df.rows⟩ vcol))).rows.isEmpty
            then filterYearCount (dropMissingCounts (addVisitorCols
              ⟨df.cols.map normalizeCol, df.rows⟩ vcol))
            else cleanCityCol (selectFinalCols (filterYearCount (dropMissingCounts
              (addVisitorCols ⟨df.cols.map normalizeCol, df.rows⟩ vcol)))) := rfl
      rw [hs2] at hout
      by_cases he4 : (dropMissingCounts (addVisitorCols ⟨df.cols.map normalizeCol, df.rows⟩
          vcol)).rows.isEmpty = true
      · rw [if_pos he4] at hout
        rw [← hout] at hne
        exact absurd (List.isEmpty_iff.mp he4) hne
      · rw [if_neg he4] at hout
        by_cases he6 : (filterYearCount (dropMissingCounts (addVisitorCols
            ⟨df.cols.map normalizeCol, df.rows⟩ vcol))).rows.isEmpty = true
        · rw [if_pos he6] at hout
          rw [← hout] at hne
          exact absurd (List.isEmpty_iff.mp he6) hne
        · rw [if_neg he6] at hout
          have hvc6 : "visitors_count" ∈ (filterYearCount (dropMissingCounts (addVisitorCols
              ⟨df.cols.map normalizeCol, df.rows⟩ vcol))).cols :=
            mem_addVisitorCols_vc ⟨df.cols.map normalizeCol, df.rows⟩ vcol
          have hvy6 : "visitors_year" ∈ (filterYearCount (dropMissingCounts (addVisitorCols
              ⟨df.cols.map normalizeCol, df.rows⟩ vcol))).cols :=
            mem_addVisitorCols_vy ⟨df.cols.map normalizeCol, df.rows⟩ vcol
          have hyear6 : ∀ r ∈ (filterYearCount (dropMissingCounts (addVisitorCols
              ⟨df.cols.map normalizeCol, df.rows⟩ vcol))).rows,
              r.getD (colIdx (filterYearCount (dropMissingCounts (addVisitorCols
                ⟨df.cols.map normalizeCol, df.rows⟩ vcol))).cols "visitors_year") Cell.na =
                Cell.int 2024 :=
            filterYearCount_year (dropMissingCounts (addVisitorCols
              ⟨df.cols.map normalizeCol, df.rows⟩ vcol))
          have hrfacts := out_rows_facts (filterYearCount (dropMissingCounts (addVisitorCols
            ⟨df.cols.map normalizeCol, df.rows⟩ vcol))) hvc6 hvy6 hyear6
          rw [hout] at hrfacts
          have hocols : out.cols =
              ((["name", "city", "country"].filterMap
                (fun t => (findSourceCol (filterYearCount (dropMissingCounts (addVisitorCols
                  ⟨df.cols.map normalizeCol, df.rows⟩ vcol))).cols t).map
                    (fun s => (t, s)))).map (fun ts => ts.1)) ++
              ["visitors_count", "visitors_year"] := by
            rw [← hout, cleanCityCol_cols, selectFinalCols_cols,
              selectTargets_decomp _ hvc6 hvy6, List.map_append]
            rfl
          have hBmem : ∀ x ∈ ((["name", "city", "country"].filterMap
              (fun t => (findSourceCol (filterYearCount (dropMissingCounts (addVisitorCols
                ⟨df.cols.map normalizeCol, df.rows⟩ vcol))).cols t).map
                  (fun s => (t, s)))).map (fun ts => ts.1)),
              x = "name" ∨ x = "city" ∨ x = "country" := by
            intro x hx
            rcases List.mem_map.mp hx with ⟨ts, hts, rfl⟩
            exact selA_fst _ ts hts
          obtain ⟨f1, f2, f3, f4, f5⟩ := standard_cols_facts _ hBmem
          have hcs := clean_on_standard out.cols out.rows
            (by rw [hocols]; exact f1)
            (by rw [hocols]; exact f2)
            (by rw [hocols]; exact f3)
            (by rw [hocols]; exact f4)
            (by rw [hocols]; exact f5)
            hne
            (fun r hr => (hrfacts r hr).1)
            (fun r hr => (hrfacts r hr).2)
          exact hcs

/-- Witness for the amended C5: the cleaned sample table re-cleans to the
empty table over the same columns. -/
theorem clean_rerun_returns_empty_w :
    clean_museum_data c5out = some ⟨c5out.cols, []⟩ :=
  clean_rerun_returns_empty c5raw c5out (by decide) (by decide)

end Visitum
